import Mathlib

/-!
# doghouse/appengine: the `/check` endpoint and process start-up

A shallow embedding of `doghouse/appengine/main.go`.

* Go `string` is `String`, `[]byte` is `List UInt8`, `int` is `Int`.
* A Go `error` is represented by its `Error()` text.
* `log.Fatal`/`log.Fatalf` end the process: the `must*` functions return
  `Except Fatal _`.
* `http.ResponseWriter` is an explicit record (`ResponseWriter`), the calls a
  handler makes to its collaborators are recorded in a list of `Event`s.
* Packages that the file imports (`encoding/json`, `doghouse/server`,
  `appengine`, `urlfetch`, `secretbox`) are collaborators passed as
  parameters (`Collab`, `World`).
-/

namespace Doghouse

/-! ## Data model -/

/-- Modelled from the spec: one finding of a static-analysis tool (§3
Diagnostic): file path, start line, optional end line, severity, message text
and optional rule identifier. The type is declared in package `doghouse`. -/
structure Diagnostic where
  path : String
  line : Nat
  endLine : Option Nat
  severity : String
  message : String
  rule : Option String
deriving DecidableEq, Repr

/-- Modelled from the spec: `doghouse.CheckRequest` (§3, §6). The handler
reads the fields `InstallationID`, `Owner` and `Repo`; the remaining fields
are the ones the spec lists. -/
structure CheckRequest where
  InstallationID : Int
  Owner : String
  Repo : String
  SHA : String
  PullRequest : Option Int
  Diagnostics : List Diagnostic
deriving DecidableEq, Repr

/-- Modelled from the spec: the overall conclusion of a check run (§3). -/
inductive Conclusion where
  | success
  | neutral
  | failure
deriving DecidableEq, Repr

/-- Modelled from the spec: the result of a check (§3, §6):
`{conclusion, reported_count, filtered_count, check_run_url}`. -/
structure CheckResult where
  conclusion : Conclusion
  reportedCount : Nat
  filteredCount : Nat
  checkRunURL : String
deriving DecidableEq, Repr

/-- The receiver of `handleCheck`: `type githubChecker struct`. -/
structure githubChecker where
  privateKey : List UInt8
  integrationID : Int
deriving DecidableEq, Repr

/-- The literal `&server.NewGitHubClientOption{...}` built by `handleCheck`;
`HC` is the type of the outbound HTTP client (`urlfetch.Client(ctx)`). -/
structure NewGitHubClientOption (HC : Type) where
  PrivateKey : List UInt8
  IntegrationID : Int
  InstallationID : Int
  RepoOwner : String
  RepoName : String
  Client : HC

/-- The part of `*http.Request` that `handleCheck` reads. -/
structure Request where
  Method : String
  Body : String
deriving DecidableEq, Repr

/-! ## The response writer -/

def StatusOK : Nat := 200
def StatusBadRequest : Nat := 400
def StatusMethodNotAllowed : Nat := 405

/-- The state of an `http.ResponseWriter`: the status line once it has been
sent (`none` before), and the bytes of the body written so far. -/
structure ResponseWriter where
  status : Option Nat
  body : String
deriving DecidableEq, Repr

namespace ResponseWriter

/-- A response on which nothing has been written. -/
def fresh : ResponseWriter := { status := none, body := "" }

/-- The method `WriteHeader` of `http.ResponseWriter`: sends the status line;
a call after the header has been sent is ignored. -/
def WriteHeader (w : ResponseWriter) (code : Nat) : ResponseWriter :=
  match w.status with
  | some _ => w
  | none => { w with status := some code }

/-- The method `Write` of `http.ResponseWriter`: the first write sends
`200 OK` when no header has been sent, then the data is appended. -/
def Write (w : ResponseWriter) (data : String) : ResponseWriter :=
  { status := some (w.status.getD StatusOK), body := w.body ++ data }

/-- The status the client receives: a handler that returns without sending a
header gets `200 OK`. -/
def finalStatus (w : ResponseWriter) : Nat := w.status.getD StatusOK

end ResponseWriter

/-! ## Collaborators and the event log -/

/-- The packages `handleCheck` calls into. Errors are their `Error()` text.
* `decode body` is `json.NewDecoder(r.Body).Decode(&req)`;
* `newContext r` is `appengine.NewContext(r)`;
* `urlfetchClient ctx` is `urlfetch.Client(ctx)`;
* `newGitHubClient ctx opt` is `server.NewGitHubClient(ctx, opt)`;
* `check req gh ctx` is `server.NewChecker(&req, gh).Check(ctx)`;
* `encode res` is the text `json.NewEncoder(w).Encode(res)` emits on the
  stream, or the error it returns (nothing is then emitted). -/
structure Collab (Ctx HC GH : Type) where
  decode : String → Except String CheckRequest
  newContext : Request → Ctx
  urlfetchClient : Ctx → HC
  newGitHubClient : Ctx → NewGitHubClientOption HC → Except String GH
  check : CheckRequest → GH → Ctx → Except String CheckResult
  encode : CheckResult → Except String String

/-- What `handleCheck` does, in order: its own calls on the response writer
and its calls to the collaborators with their arguments. -/
inductive Event (HC GH : Type) where
  | writeHeader (code : Nat)
  | fprint (text : String)
  | decodeBody (body : String)
  | newGitHubClient (opt : NewGitHubClientOption HC)
  | check (req : CheckRequest) (gh : GH)
  | encode (res : CheckResult)

/-- The state threaded through `handleCheck`: the receiver `gc`, the response
writer `w`, and the log of events. -/
structure HandlerState (HC GH : Type) where
  gc : githubChecker
  w : ResponseWriter
  log : List (Event HC GH)

namespace HandlerState

variable {HC GH : Type}

/-- The call `w.WriteHeader(code)` made by the handler. -/
def writeHeader (s : HandlerState HC GH) (code : Nat) : HandlerState HC GH :=
  { s with w := s.w.WriteHeader code, log := s.log ++ [Event.writeHeader code] }

/-- The calls `fmt.Fprintf(w, ...)` and `fmt.Fprintln(w, ...)` made by the
handler, with the formatted text. -/
def fprint (s : HandlerState HC GH) (text : String) : HandlerState HC GH :=
  { s with w := s.w.Write text, log := s.log ++ [Event.fprint text] }

/-- Appends a collaborator call to the log. -/
def record (s : HandlerState HC GH) (e : Event HC GH) : HandlerState HC GH :=
  { s with log := s.log ++ [e] }

end HandlerState

/-! ## `handleCheck` -/

section Handler

variable {Ctx HC GH : Type}

/-- The method `func (gc *githubChecker) handleCheck(w, r)`. -/
def handleCheck (c : Collab Ctx HC GH) (gc : githubChecker) (w : ResponseWriter)
    (r : Request) : HandlerState HC GH :=
  let s : HandlerState HC GH := { gc := gc, w := w, log := [] }
  if r.Method ≠ "POST" then
    s.writeHeader StatusMethodNotAllowed
  else
    let s := s.record (Event.decodeBody r.Body)
    match c.decode r.Body with
    | .error err =>
      (s.writeHeader StatusBadRequest).fprint ("failed to decode request: " ++ err)
    | .ok req =>
      let ctx := c.newContext r
      let opt : NewGitHubClientOption HC :=
        { PrivateKey := s.gc.privateKey
          IntegrationID := s.gc.integrationID
          InstallationID := req.InstallationID
          RepoOwner := req.Owner
          RepoName := req.Repo
          Client := c.urlfetchClient ctx }
      let s := s.record (Event.newGitHubClient opt)
      match c.newGitHubClient ctx opt with
      | .error err =>
        (s.writeHeader StatusBadRequest).fprint (err ++ "\n")
      | .ok gh =>
        let s := s.record (Event.check req gh)
        match c.check req gh ctx with
        | .error err =>
          (s.writeHeader StatusBadRequest).fprint (err ++ "\n")
        | .ok res =>
          let s := s.record (Event.encode res)
          match c.encode res with
          | .error err =>
            (s.writeHeader StatusBadRequest).fprint (err ++ "\n")
          | .ok text =>
            { s with w := s.w.Write text }

end Handler

/-! ## Predicates on the event log -/

section LogPredicates

variable {HC GH : Type}

def Event.isWriteHeader : Event HC GH → Bool
  | .writeHeader _ => true
  | _ => false

def Event.isDecodeBody : Event HC GH → Bool
  | .decodeBody _ => true
  | _ => false

def Event.isNewGitHubClient : Event HC GH → Bool
  | .newGitHubClient _ => true
  | _ => false

def Event.isCheck : Event HC GH → Bool
  | .check _ _ => true
  | _ => false

def Event.isEncode : Event HC GH → Bool
  | .encode _ => true
  | _ => false

end LogPredicates

/-! ## Process start-up -/

/-- The bytes of a Go string: the conversion `[]byte(s)`. -/
def bytesOf (s : String) : List UInt8 := s.toUTF8.data.toList

/-- The value of `strconv.IntSize`: the width of `int` on the platform. -/
inductive IntSize where
  | bits32
  | bits64
deriving DecidableEq, Repr

def IntSize.toNat : IntSize → Nat
  | .bits32 => 32
  | .bits64 => 64

/-- The two `Err` values of a `*strconv.NumError`. -/
inductive NumError where
  | ErrSyntax
  | ErrRange
deriving DecidableEq, Repr

/-- The largest `uint64`. -/
def maxUint64 : Nat := 2 ^ 64 - 1

/-- The function `lower` of `strconv`: `c | ('x' - 'X')`. -/
def lower (c : Nat) : Nat := c ||| 0x20

/-- The digit switch in the loop of `strconv.ParseUint` (underscores are only
looked at for base 0): the value of a digit or letter byte, `none` for any
other byte. -/
def digitVal (c : Nat) : Option Nat :=
  if 48 ≤ c ∧ c ≤ 57 then some (c - 48)
  else if 97 ≤ lower c ∧ lower c ≤ 122 then some (lower c - 97 + 10)
  else none

/-- The loop of `strconv.ParseUint(s, 10, bitSize)` over the bytes of `s`,
with `uint64` arithmetic: `n` is the accumulator, `maxVal` is
`1<<bitSize - 1`. Returns the pair `(value, error)`. -/
def parseUintLoop (maxVal : Nat) : List Nat → Nat → Nat × Option NumError
  | [], n => (n, none)
  | c :: cs, n =>
    match digitVal c with
    | none => (0, some .ErrSyntax)
    | some d =>
      if d ≥ 10 then (0, some .ErrSyntax)
      else if n ≥ maxUint64 / 10 + 1 then (maxVal, some .ErrRange)
      else
        let n := (n * 10) % 2 ^ 64
        let n1 := (n + d) % 2 ^ 64
        if n1 < n ∨ n1 > maxVal then (maxVal, some .ErrRange)
        else parseUintLoop maxVal cs n1

/-- The function `strconv.ParseUint(s, 10, 0)` of the Go standard library, on
the bytes of `s`. -/
def ParseUint (sz : IntSize) (s : List Nat) : Nat × Option NumError :=
  if s = [] then (0, some .ErrSyntax)
  else parseUintLoop (2 ^ sz.toNat - 1) s 0

/-- The conversion of an integer to a signed machine integer of `bits` bits
(two's complement): the conversions `int64(x)` and `int(x)`, and the result
of signed arithmetic. -/
def wrapInt (bits : Nat) (x : Int) : Int :=
  (x + 2 ^ (bits - 1)) % 2 ^ bits - 2 ^ (bits - 1)

/-- The function `strconv.ParseInt(s, 10, 0)` of the Go standard library, on
the bytes of `s`: picks off a leading sign, converts unsigned and checks the
range. The result is an `int64`. -/
def ParseInt (sz : IntSize) (s : List Nat) : Int × Option NumError :=
  match s with
  | [] => (0, some .ErrSyntax)
  | c :: rest =>
    let neg := c = 45
    let s1 := if c = 43 ∨ c = 45 then rest else s
    let (un, err) := ParseUint sz s1
    if err = some .ErrSyntax then (0, err)
    else
      let cutoff := 2 ^ (sz.toNat - 1)
      if ¬ neg ∧ un ≥ cutoff then (wrapInt 64 ((cutoff : Int) - 1), some .ErrRange)
      else if neg ∧ un > cutoff then (wrapInt 64 (-(wrapInt 64 cutoff)), some .ErrRange)
      else
        let n := wrapInt 64 un
        (if neg then wrapInt 64 (-n) else n, none)

/-- The function `strconv.Atoi` of the Go standard library, which is
`ParseInt(s, 10, 0)` converted to type `int`. -/
def Atoi (sz : IntSize) (s : String) : Int × Option NumError :=
  let (i64, err) := ParseInt sz ((bytesOf s).map UInt8.toNat)
  (wrapInt sz.toNat i64, err)

/-- The reasons for which start-up ends the process (`log.Fatal`,
`log.Fatalf`). -/
inductive Fatal where
  /-- The message `"%s is not set"`. -/
  | notSet (name : String)
  /-- The call `log.Fatal(err)` on the error of `strconv.Atoi`. -/
  | atoi (err : NumError)
  /-- The message `"could not read private key: %s"`. -/
  | readKey (err : String)
  /-- The message `"failed to create secretbox: %v"`. -/
  | secretbox (err : String)
deriving DecidableEq, Repr

/-- The fields of `http.Cookie` set by `mustCookieMan`. -/
structure Cookie where
  HttpOnly : Bool
  Secure : Bool
  MaxAge : Int
  Path : String
  Domain : String
deriving DecidableEq, Repr

/-- The value `cookieman.New(cipher, c)`. -/
structure CookieMan (Cipher : Type) where
  cipher : Cipher
  option : Cookie

/-- What the process finds when it starts, and the constructors of other
packages that `main` calls.
* `environ` is the process environment (`none`: the variable is unset);
* `readFile` is `ioutil.ReadFile` on the file system;
* `isDevAppServer` is `appengine.IsDevAppServer()`;
* `newFromHexKey` is `secretbox.NewFromHexKey`;
* `newGitHubHandler` is the constructor `NewGitHubHandler`. -/
structure World (Cipher H : Type) where
  environ : String → Option String
  readFile : String → Except String (List UInt8)
  intSize : IntSize
  isDevAppServer : Bool
  newFromHexKey : String → Except String Cipher
  newGitHubHandler : String → String → CookieMan Cipher → List UInt8 → Int → H

/-- The receiver of `handleWebhook`: `githubWebhookHandler{secret: ...}`. -/
structure githubWebhookHandler where
  secret : List UInt8
deriving DecidableEq, Repr

/-- The handlers that `main` registers. -/
inductive Handler (H : Type) where
  | handleTop
  | handleCheck (gc : githubChecker)
  | handleWebhook (wh : githubWebhookHandler)
  | HandleAuthCallback (gh : H)
  | HandleGitHubTop (gh : H)

/-- The process after `main` has run up to `appengine.Main()`: the routes of
the default mux in registration order, and the reason of the exit if the
process was ended. -/
structure Process (H : Type) where
  mux : List (String × Handler H)
  exit : Option Fatal

section Startup

variable {Cipher H : Type}

/-- The function `os.Getenv`: the value of the variable, `""` if unset. -/
def Getenv (w : World Cipher H) (name : String) : String :=
  (w.environ name).getD ""

/-- The function `mustGetenv`. -/
def mustGetenv (w : World Cipher H) (name : String) : Except Fatal String :=
  let s := Getenv w name
  if s = "" then .error (.notSet name) else .ok s

/-- The function `mustIntEnv`. -/
def mustIntEnv (w : World Cipher H) (name : String) : Except Fatal Int :=
  let s := Getenv w name
  if s = "" then .error (.notSet name)
  else
    match Atoi w.intSize s with
    | (_, some err) => .error (.atoi err)
    | (i, none) => .ok i

def privateKeyFile : String := "./secret/github-apps.private-key.pem"

/-- The function `mustGitHubAppsPrivateKey`. -/
def mustGitHubAppsPrivateKey (w : World Cipher H) : Except Fatal (List UInt8) :=
  match w.readFile privateKeyFile with
  | .error err => .error (.readKey err)
  | .ok githubAppsPrivateKey => .ok githubAppsPrivateKey

/-- The function `mustCookieMan`. -/
def mustCookieMan (w : World Cipher H) : Except Fatal (CookieMan Cipher) := do
  let key ← mustGetenv w "SECRETBOX_SECRET"
  match w.newFromHexKey key with
  | .error err => .error (.secretbox err)
  | .ok cipher =>
    let c : Cookie :=
      { HttpOnly := true
        Secure := !w.isDevAppServer
        MaxAge := 30 * 24 * 3600
        Path := "/"
        Domain := "" }
    let c := if !w.isDevAppServer then
      { c with Secure := true, Domain := "review-dog.appspot.com" } else c
    .ok { cipher := cipher, option := c }

/-- The values `main` builds before it registers routes. -/
structure Built (H : Type) where
  ghHandler : H
  ghChecker : githubChecker
  ghWebhookHandler : githubWebhookHandler

/-- The first part of `main`, up to the construction of `ghWebhookHandler`;
arguments are evaluated left to right. -/
def build (w : World Cipher H) : Except Fatal (Built H) := do
  let integrationID ← mustIntEnv w "GITHUB_INTEGRATION_ID"
  let ghPrivateKey ← mustGitHubAppsPrivateKey w
  let clientID ← mustGetenv w "GITHUB_CLIENT_ID"
  let clientSecret ← mustGetenv w "GITHUB_CLIENT_SECRET"
  let cm ← mustCookieMan w
  let ghHandler := w.newGitHubHandler clientID clientSecret cm ghPrivateKey integrationID
  let ghChecker : githubChecker :=
    { privateKey := ghPrivateKey, integrationID := integrationID }
  let secret ← mustGetenv w "GITHUB_WEBHOOK_SECRET"
  let ghWebhookHandler : githubWebhookHandler := { secret := bytesOf secret }
  pure { ghHandler := ghHandler, ghChecker := ghChecker, ghWebhookHandler := ghWebhookHandler }

/-- The function `main`, up to the call of `appengine.Main()`. -/
def main (w : World Cipher H) : Process H :=
  match build w with
  | .error f => { mux := [], exit := some f }
  | .ok b =>
    { mux :=
        [ ("/", .handleTop),
          ("/check", .handleCheck b.ghChecker),
          ("/webhook", .handleWebhook b.ghWebhookHandler),
          ("/gh/_auth/callback", .HandleAuthCallback b.ghHandler),
          ("/gh/", .HandleGitHubTop b.ghHandler) ]
      exit := none }

/-- The `githubChecker` whose `handleCheck` is registered, if any. -/
def Process.checker (p : Process H) : Option githubChecker :=
  p.mux.findSome? fun r =>
    match r.2 with
    | .handleCheck gc => some gc
    | _ => none

/-- The `githubWebhookHandler` whose `handleWebhook` is registered, if any. -/
def Process.webhook (p : Process H) : Option githubWebhookHandler :=
  p.mux.findSome? fun r =>
    match r.2 with
    | .handleWebhook wh => some wh
    | _ => none

/-- The patterns of the registered routes. -/
def Process.routes (p : Process H) : List String := p.mux.map Prod.fst

end Startup

/-! ## Integer literals, as the claim words them -/

/-- A byte is one of the digits `0` to `9`. -/
def isDigit (c : Nat) : Bool := 48 ≤ c && c ≤ 57

/-- The number denoted by a sequence of digits, most significant first. -/
def digitsValue (ds : List Nat) : Nat := ds.foldl (fun n c => n * 10 + (c - 48)) 0

/-- The integer denoted by a base-10 literal: an optional sign `+` or `-`
followed by one or more digits and nothing else; `none` if the bytes are not
of this form. -/
def literalValue (s : List Nat) : Option Int :=
  match s with
  | [] => none
  | c :: rest =>
    if c = 45 then
      if rest ≠ [] ∧ rest.all isDigit then some (-(digitsValue rest : Int)) else none
    else if c = 43 then
      if rest ≠ [] ∧ rest.all isDigit then some (digitsValue rest : Int) else none
    else
      if s.all isDigit then some (digitsValue s : Int) else none

/-- The integer fits the type `int`: `-2^(w-1) ≤ v ≤ 2^(w-1) - 1`. -/
def inIntRange (sz : IntSize) (v : Int) : Prop :=
  -(2 ^ (sz.toNat - 1) : Int) ≤ v ∧ v ≤ (2 ^ (sz.toNat - 1) : Int) - 1

instance (sz : IntSize) (v : Int) : Decidable (inIntRange sz v) := by
  unfold inIntRange; infer_instance

/-- The integer a string denotes as a base-10 literal within `int` range. -/
def intOfString (sz : IntSize) (s : String) : Option Int :=
  match literalValue ((bytesOf s).map UInt8.toNat) with
  | some v => if inIntRange sz v then some v else none
  | none => none

/-! ## The annotation batcher -/

/-- Modelled from the spec: the platform-shaped projection of a `Diagnostic`
(§3 Annotation): path, line range, annotation level, message, title. The type
and the batcher belong to package `doghouse/server`. -/
structure Annotation where
  path : String
  startLine : Nat
  endLine : Nat
  level : String
  message : String
  title : Option String
deriving DecidableEq, Repr

/-- Modelled from the spec: the severity to platform level mapping of §4.4
step 1 (failure, warning and notice map to themselves); an unknown severity
has no level. -/
def annotationLevel (severity : String) : Option String :=
  if severity = "failure" then some "failure"
  else if severity = "warning" then some "warning"
  else if severity = "notice" then some "notice"
  else none

/-- Modelled from the spec: a diagnostic survives severity filtering when its
severity is known (§4.4 step 1: unknown severities are dropped). -/
def survives (d : Diagnostic) : Bool := (annotationLevel d.severity).isSome

/-- Modelled from the spec: the projection of a diagnostic to an annotation
(§4.4 step 1); the end line defaults to the start line (§3). -/
def toAnnotation (d : Diagnostic) : Annotation :=
  { path := d.path
    startLine := d.line
    endLine := d.endLine.getD d.line
    level := (annotationLevel d.severity).getD ""
    message := d.message
    title := d.rule }

/-- Modelled from the spec: the partition of §4.4 step 2 into consecutive
chunks of at most `m`: while items remain, the next chunk is the first `m` of
them. The first argument bounds the number of chunks. -/
def chunksUpTo {α : Type} (m : Nat) : Nat → List α → List (List α)
  | 0, _ => []
  | _ + 1, [] => []
  | fuel + 1, x :: xs => (x :: xs).take m :: chunksUpTo m fuel ((x :: xs).drop m)

/-- Modelled from the spec: consecutive chunks of at most `m`; a list of
length `n` has at most `n` chunks. -/
def chunks {α : Type} (m : Nat) (xs : List α) : List (List α) :=
  chunksUpTo m xs.length xs

/-- Modelled from the spec: the annotation batches of §4.4 steps 1 and 2:
filter by severity, project, partition. -/
def annotationBatches (diagnostics : List Diagnostic) (maxBatchSize : Nat) :
    List (List Annotation) :=
  chunks maxBatchSize ((diagnostics.filter survives).map toAnnotation)

/-- Modelled from the spec: the conclusion of §4.4 step 3; `warningsBlock` is
the caller's policy on warnings. -/
def conclusionOf (warningsBlock : Bool) (diagnostics : List Diagnostic) : Conclusion :=
  if diagnostics.any (fun d => d.severity = "failure") then .failure
  else if diagnostics.any (fun d => d.severity = "warning") && warningsBlock then .failure
  else if diagnostics.any survives || diagnostics.isEmpty then .success
  else .neutral

/-- Modelled from the spec: the contract `batch(diagnostics, maxBatchSize)` of
§4.4, with the reported and filtered counts of the result. -/
def batch (warningsBlock : Bool) (diagnostics : List Diagnostic) (maxBatchSize : Nat) :
    List (List Annotation) × Conclusion × Nat × Nat :=
  (annotationBatches diagnostics maxBatchSize,
   conclusionOf warningsBlock diagnostics,
   (diagnostics.filter survives).length,
   (diagnostics.filter (fun d => !survives d)).length)

/-- The diagnostic number `i` of the scenario of §8: the first hundred are
warnings, the rest failures. -/
def scenarioDiagnostic (i : Nat) : Diagnostic :=
  { path := "main.go"
    line := i + 1
    endLine := none
    severity := if i < 100 then "warning" else "failure"
    message := "finding"
    rule := none }

/-- The 120 diagnostics of the scenario of §8. -/
def scenarioDiagnostics : List Diagnostic := (List.range 120).map scenarioDiagnostic

/-! ## Statement helpers for `handleCheck` -/

section Helpers

variable {Ctx HC GH : Type}

/-- The option `handleCheck` is expected to pass to `server.NewGitHubClient`
for the checker `gc`, the request `r` and the decoded body `req`. -/
def expectedOption (c : Collab Ctx HC GH) (gc : githubChecker) (r : Request)
    (req : CheckRequest) : NewGitHubClientOption HC :=
  { PrivateKey := gc.privateKey
    IntegrationID := gc.integrationID
    InstallationID := req.InstallationID
    RepoOwner := req.Owner
    RepoName := req.Repo
    Client := c.urlfetchClient (c.newContext r) }

/-- An internal step of the request failed: the method is not `POST`, or the
body does not decode, or the GitHub client cannot be created, or the check
returns an error. -/
def stepFailed (c : Collab Ctx HC GH) (gc : githubChecker) (r : Request) : Prop :=
  r.Method ≠ "POST" ∨
  (∃ err, c.decode r.Body = .error err) ∨
  (∃ req err, c.decode r.Body = .ok req ∧
    c.newGitHubClient (c.newContext r) (expectedOption c gc r req) = .error err) ∨
  (∃ req gh err, c.decode r.Body = .ok req ∧
    c.newGitHubClient (c.newContext r) (expectedOption c gc r req) = .ok gh ∧
    c.check req gh (c.newContext r) = .error err)

/-- A collaborator set over unit types, for concrete runs: the body `"\x7b\x7d"`
decodes to `req`, any other body is rejected; client creation, check and
encoding answer as given. -/
def sampleCollab (req : CheckRequest) (client : Except String Unit)
    (checked : Except String CheckResult) (encoded : Except String String) :
    Collab Unit Unit Unit :=
  { decode := fun body => if body = "\x7b\x7d" then .ok req else .error "unexpected end of JSON input"
    newContext := fun _ => ()
    urlfetchClient := fun _ => ()
    newGitHubClient := fun _ _ => client
    check := fun _ _ _ => checked
    encode := fun _ => encoded }

def sampleRequest : CheckRequest :=
  { InstallationID := 7, Owner := "haya14busa", Repo := "reviewdog", SHA := "abc",
    PullRequest := some 1, Diagnostics := [] }

def sampleResult : CheckResult :=
  { conclusion := .success, reportedCount := 0, filteredCount := 0, checkRunURL := "u" }

def sampleChecker : githubChecker := { privateKey := [1, 2, 3], integrationID := 42 }

end Helpers

/-- Modelled from the spec: the signing key is PEM-encoded (§3); a PEM block
opens with the marker `-----BEGIN`. Bytes without the marker are not a
well-formed key. -/
def hasPEMMarker (key : List UInt8) : Bool :=
  decide (bytesOf "-----BEGIN" <:+: key)

/-- An environment in which every variable read by `main` is set. -/
def sampleEnviron (name : String) : Option String :=
  if name = "GITHUB_INTEGRATION_ID" then some "12345"
  else if name = "GITHUB_CLIENT_ID" then some "client"
  else if name = "GITHUB_CLIENT_SECRET" then some "hush"
  else if name = "SECRETBOX_SECRET" then some "00ff"
  else if name = "GITHUB_WEBHOOK_SECRET" then some "s3"
  else none

/-- A world over unit types, for concrete runs: the environment `env`, a file
system in which the key file reads as `key` and no other file exists, a
64-bit platform, constructors that succeed. -/
def sampleWorld (env : String → Option String) (key : Except String (List UInt8)) :
    World Unit Unit :=
  { environ := env
    readFile := fun path => if path = privateKeyFile then key else .error "no such file"
    intSize := .bits64
    isDevAppServer := false
    newFromHexKey := fun _ => .ok ()
    newGitHubHandler := fun _ _ _ _ _ => () }

/-- The world `w` with the contents of the key file replaced by `content`:
the file is readable and holds exactly these bytes; nothing else changes. -/
def withKeyFile {Cipher H : Type} (w : World Cipher H) (content : List UInt8) :
    World Cipher H :=
  { w with
    readFile := fun path => if path = privateKeyFile then .ok content else w.readFile path }

/-! ## Theorems: `handleCheck` -/

section HandlerTheorems

variable {Ctx HC GH : Type}

/-- C8: a request whose method is not exactly `"POST"` gets status 405 and an
empty body; the only thing the handler does is the call `WriteHeader(405)`:
the body is not decoded, no GitHub client is created, no check is run. -/
theorem handleCheck_method_not_allowed (c : Collab Ctx HC GH) (gc : githubChecker)
    (r : Request) (hm : r.Method ≠ "POST") :
    (handleCheck c gc ResponseWriter.fresh r).w.status = some 405 ∧
    (handleCheck c gc ResponseWriter.fresh r).w.body = "" ∧
    (handleCheck c gc ResponseWriter.fresh r).log = [Event.writeHeader 405] ∧
    (handleCheck c gc ResponseWriter.fresh r).log.all
      (fun e => !e.isDecodeBody && !e.isNewGitHubClient && !e.isCheck && !e.isEncode) = true := by
  simp [handleCheck, hm, HandlerState.writeHeader, ResponseWriter.WriteHeader,
    ResponseWriter.fresh, StatusMethodNotAllowed, Event.isDecodeBody,
    Event.isNewGitHubClient, Event.isCheck, Event.isEncode]

theorem handleCheck_method_not_allowed_witness :
    (handleCheck (sampleCollab sampleRequest (.ok ()) (.ok sampleResult) (.ok "\x7b\x7d"))
        sampleChecker ResponseWriter.fresh ⟨"post", "\x7b\x7d"⟩).w.status = some 405 :=
  (handleCheck_method_not_allowed _ sampleChecker ⟨"post", "\x7b\x7d"⟩ (by decide)).1

/-- C1: a `POST` request whose body fails to decode gets status 400 and the
body `"failed to decode request: "` followed by the text of the decode error;
after decoding the handler only writes the response: no GitHub client is
created and no check is run. -/
theorem handleCheck_decode_error (c : Collab Ctx HC GH) (gc : githubChecker)
    (r : Request) (err : String) (hm : r.Method = "POST")
    (hd : c.decode r.Body = .error err) :
    (handleCheck c gc ResponseWriter.fresh r).w.status = some 400 ∧
    (handleCheck c gc ResponseWriter.fresh r).w.body = "failed to decode request: " ++ err ∧
    (handleCheck c gc ResponseWriter.fresh r).log =
      [Event.decodeBody r.Body, Event.writeHeader 400,
       Event.fprint ("failed to decode request: " ++ err)] ∧
    (handleCheck c gc ResponseWriter.fresh r).log.all
      (fun e => !e.isNewGitHubClient && !e.isCheck && !e.isEncode) = true := by
  simp [handleCheck, hm, hd, HandlerState.writeHeader, HandlerState.fprint,
    HandlerState.record, ResponseWriter.WriteHeader, ResponseWriter.Write,
    ResponseWriter.fresh, StatusBadRequest, Event.isNewGitHubClient, Event.isCheck,
    Event.isEncode]

theorem handleCheck_decode_error_witness :
    (handleCheck (sampleCollab sampleRequest (.ok ()) (.ok sampleResult) (.ok "\x7b\x7d"))
        sampleChecker ResponseWriter.fresh ⟨"POST", "\x7b"⟩).w.body =
      "failed to decode request: unexpected end of JSON input" :=
  (handleCheck_decode_error _ sampleChecker ⟨"POST", "\x7b"⟩ "unexpected end of JSON input"
    rfl (by simp [sampleCollab])).2.1

/-- C2: for a `POST` request whose body decodes to `req`, if
`server.NewGitHubClient` returns the error `err`, or it returns a client and
`Check` returns the error `err`, the response has status 400 and its body is
the text of `err` followed by a newline; when client creation fails, `Check`
is not invoked. -/
theorem handleCheck_downstream_error (c : Collab Ctx HC GH) (gc : githubChecker)
    (r : Request) (req : CheckRequest) (err : String) (hm : r.Method = "POST")
    (hd : c.decode r.Body = .ok req) :
    (c.newGitHubClient (c.newContext r) (expectedOption c gc r req) = .error err →
      (handleCheck c gc ResponseWriter.fresh r).w.status = some 400 ∧
      (handleCheck c gc ResponseWriter.fresh r).w.body = err ++ "\n" ∧
      (handleCheck c gc ResponseWriter.fresh r).log.all (fun e => !e.isCheck) = true) ∧
    (∀ gh, c.newGitHubClient (c.newContext r) (expectedOption c gc r req) = .ok gh →
      c.check req gh (c.newContext r) = .error err →
      (handleCheck c gc ResponseWriter.fresh r).w.status = some 400 ∧
      (handleCheck c gc ResponseWriter.fresh r).w.body = err ++ "\n") := by
  constructor
  · intro hc
    simp only [expectedOption] at hc
    simp [handleCheck, hm, hd, hc, HandlerState.writeHeader, HandlerState.fprint,
      HandlerState.record, ResponseWriter.WriteHeader, ResponseWriter.Write,
      ResponseWriter.fresh, StatusBadRequest, Event.isCheck]
  · intro gh hc hk
    simp only [expectedOption] at hc
    simp [handleCheck, hm, hd, hc, hk, HandlerState.writeHeader, HandlerState.fprint,
      HandlerState.record, ResponseWriter.WriteHeader, ResponseWriter.Write,
      ResponseWriter.fresh, StatusBadRequest]

theorem handleCheck_downstream_error_witness :
    ((handleCheck (sampleCollab sampleRequest (.error "bad key") (.ok sampleResult) (.ok "\x7b\x7d"))
        sampleChecker ResponseWriter.fresh ⟨"POST", "\x7b\x7d"⟩).w.status = some 400 ∧
     (handleCheck (sampleCollab sampleRequest (.error "bad key") (.ok sampleResult) (.ok "\x7b\x7d"))
        sampleChecker ResponseWriter.fresh ⟨"POST", "\x7b\x7d"⟩).w.body = "bad key" ++ "\n" ∧
     (handleCheck (sampleCollab sampleRequest (.error "bad key") (.ok sampleResult) (.ok "\x7b\x7d"))
        sampleChecker ResponseWriter.fresh ⟨"POST", "\x7b\x7d"⟩).log.all
        (fun e => !e.isCheck) = true) :=
  (handleCheck_downstream_error
    (sampleCollab sampleRequest (.error "bad key") (.ok sampleResult) (.ok "\x7b\x7d"))
    sampleChecker ⟨"POST", "\x7b\x7d"⟩ sampleRequest "bad key" rfl (by simp [sampleCollab])).1
    (by simp [sampleCollab])

/-- C3: for a `POST` request whose body decodes and for which client creation,
`Check` and JSON encoding all succeed, the handler makes no call to
`WriteHeader`, the status is the default 200, and the response body is exactly
what the JSON encoder emits for the result returned by `Check`. -/
theorem handleCheck_success (c : Collab Ctx HC GH) (gc : githubChecker)
    (r : Request) (req : CheckRequest) (gh : GH) (res : CheckResult) (text : String)
    (hm : r.Method = "POST") (hd : c.decode r.Body = .ok req)
    (hc : c.newGitHubClient (c.newContext r) (expectedOption c gc r req) = .ok gh)
    (hk : c.check req gh (c.newContext r) = .ok res)
    (he : c.encode res = .ok text) :
    (handleCheck c gc ResponseWriter.fresh r).log.all (fun e => !e.isWriteHeader) = true ∧
    (handleCheck c gc ResponseWriter.fresh r).w.finalStatus = 200 ∧
    (handleCheck c gc ResponseWriter.fresh r).w.body = text ∧
    (handleCheck c gc ResponseWriter.fresh r).log =
      [Event.decodeBody r.Body, Event.newGitHubClient (expectedOption c gc r req),
       Event.check req gh, Event.encode res] := by
  simp only [expectedOption] at hc
  simp [handleCheck, hm, hd, hc, hk, he, HandlerState.record, ResponseWriter.Write,
    ResponseWriter.fresh, ResponseWriter.finalStatus, StatusOK, Event.isWriteHeader,
    expectedOption]

theorem handleCheck_success_witness :
    (handleCheck (sampleCollab sampleRequest (.ok ()) (.ok sampleResult) (.ok "\x7b\"c\":1\x7d\n"))
        sampleChecker ResponseWriter.fresh ⟨"POST", "\x7b\x7d"⟩).w.body = "\x7b\"c\":1\x7d\n" :=
  (handleCheck_success
    (sampleCollab sampleRequest (.ok ()) (.ok sampleResult) (.ok "\x7b\"c\":1\x7d\n"))
    sampleChecker ⟨"POST", "\x7b\x7d"⟩ sampleRequest () sampleResult "\x7b\"c\":1\x7d\n" rfl
    (by simp [sampleCollab]) (by simp [sampleCollab]) (by simp [sampleCollab])
    (by simp [sampleCollab])).2.2.1

/-- C4: if the method is not `POST`, or request decoding, GitHub client
creation or `Check` fails, then the JSON encoder is never invoked on a check
result, and the response status is 405 or 400, never 200. -/
theorem handleCheck_no_result_on_failure (c : Collab Ctx HC GH) (gc : githubChecker)
    (r : Request) (hf : stepFailed c gc r) :
    (handleCheck c gc ResponseWriter.fresh r).log.all (fun e => !e.isEncode) = true ∧
    ((handleCheck c gc ResponseWriter.fresh r).w.finalStatus = 405 ∨
     (handleCheck c gc ResponseWriter.fresh r).w.finalStatus = 400) ∧
    (handleCheck c gc ResponseWriter.fresh r).w.finalStatus ≠ 200 := by
  by_cases hm : r.Method = "POST"
  · rcases hf with h | ⟨err, hd⟩ | ⟨req, err, hd, hc⟩ | ⟨req, gh, err, hd, hc, hk⟩
    · exact absurd hm h
    · simp [handleCheck, hm, hd, HandlerState.writeHeader, HandlerState.fprint,
        HandlerState.record, ResponseWriter.WriteHeader, ResponseWriter.Write,
        ResponseWriter.fresh, ResponseWriter.finalStatus, StatusBadRequest, Event.isEncode]
    · simp only [expectedOption] at hc
      simp [handleCheck, hm, hd, hc, HandlerState.writeHeader, HandlerState.fprint,
        HandlerState.record, ResponseWriter.WriteHeader, ResponseWriter.Write,
        ResponseWriter.fresh, ResponseWriter.finalStatus, StatusBadRequest, Event.isEncode]
    · simp only [expectedOption] at hc
      simp [handleCheck, hm, hd, hc, hk, HandlerState.writeHeader, HandlerState.fprint,
        HandlerState.record, ResponseWriter.WriteHeader, ResponseWriter.Write,
        ResponseWriter.fresh, ResponseWriter.finalStatus, StatusBadRequest, Event.isEncode]
  · simp [handleCheck, hm, HandlerState.writeHeader, ResponseWriter.WriteHeader,
      ResponseWriter.fresh, ResponseWriter.finalStatus, StatusMethodNotAllowed,
      Event.isEncode]

theorem handleCheck_no_result_on_failure_witness :
    (handleCheck (sampleCollab sampleRequest (.ok ()) (.error "boom") (.ok "\x7b\x7d"))
        sampleChecker ResponseWriter.fresh ⟨"POST", "\x7b\x7d"⟩).w.finalStatus ≠ 200 :=
  (handleCheck_no_result_on_failure
    (sampleCollab sampleRequest (.ok ()) (.error "boom") (.ok "\x7b\x7d"))
    sampleChecker ⟨"POST", "\x7b\x7d"⟩
    (Or.inr (Or.inr (Or.inr ⟨sampleRequest, (), "boom", by simp [sampleCollab],
      by simp [sampleCollab], by simp [sampleCollab]⟩)))).2.2

/-- C9: for a `POST` request that decodes to `req`, the option passed to
`server.NewGitHubClient` carries `gc.privateKey`, `gc.integrationID`,
`req.InstallationID`, `req.Owner` and `req.Repo`; every call of `Check` is on
a checker built from that same `req` (and on the client just created); and the
handler leaves the fields of `gc` unchanged. -/
theorem handleCheck_arguments (c : Collab Ctx HC GH) (gc : githubChecker)
    (r : Request) (req : CheckRequest) (hm : r.Method = "POST")
    (hd : c.decode r.Body = .ok req) :
    Event.newGitHubClient (expectedOption c gc r req) ∈
      (handleCheck c gc ResponseWriter.fresh r).log ∧
    (∀ opt, Event.newGitHubClient opt ∈ (handleCheck c gc ResponseWriter.fresh r).log →
      opt.PrivateKey = gc.privateKey ∧ opt.IntegrationID = gc.integrationID ∧
      opt.InstallationID = req.InstallationID ∧ opt.RepoOwner = req.Owner ∧
      opt.RepoName = req.Repo) ∧
    (∀ req1 gh, Event.check req1 gh ∈ (handleCheck c gc ResponseWriter.fresh r).log →
      req1 = req ∧
      c.newGitHubClient (c.newContext r) (expectedOption c gc r req) = .ok gh) ∧
    (∀ gh, c.newGitHubClient (c.newContext r) (expectedOption c gc r req) = .ok gh →
      Event.check req gh ∈ (handleCheck c gc ResponseWriter.fresh r).log) ∧
    (handleCheck c gc ResponseWriter.fresh r).gc.privateKey = gc.privateKey ∧
    (handleCheck c gc ResponseWriter.fresh r).gc.integrationID = gc.integrationID := by
  cases hc : c.newGitHubClient (c.newContext r) (expectedOption c gc r req) with
  | error e =>
    simp only [expectedOption] at hc
    simp [handleCheck, hm, hd, hc, HandlerState.writeHeader, HandlerState.fprint,
      HandlerState.record, expectedOption]
  | ok gh =>
    simp only [expectedOption] at hc
    cases hk : c.check req gh (c.newContext r) with
    | error e =>
      simp [handleCheck, hm, hd, hc, hk, HandlerState.writeHeader, HandlerState.fprint,
        HandlerState.record, expectedOption]
    | ok res =>
      cases he : c.encode res with
      | error e =>
        simp [handleCheck, hm, hd, hc, hk, he, HandlerState.writeHeader,
          HandlerState.fprint, HandlerState.record, expectedOption]
      | ok text =>
        simp [handleCheck, hm, hd, hc, hk, he, HandlerState.record, expectedOption]

theorem handleCheck_arguments_witness :
    (handleCheck (sampleCollab sampleRequest (.ok ()) (.ok sampleResult) (.ok "\x7b\x7d"))
        sampleChecker ResponseWriter.fresh ⟨"POST", "\x7b\x7d"⟩).gc.integrationID = 42 :=
  (handleCheck_arguments
    (sampleCollab sampleRequest (.ok ()) (.ok sampleResult) (.ok "\x7b\x7d"))
    sampleChecker ⟨"POST", "\x7b\x7d"⟩ sampleRequest rfl (by simp [sampleCollab])).2.2.2.2.2

end HandlerTheorems

/-! ## Theorems: `strconv.Atoi` against base-10 literals -/

section AtoiTheorems

/-- The accumulator of the digit loop after the digits `ds`, without overflow. -/
theorem foldl_digits_ge (ds : List Nat) (n : Nat) :
    n ≤ ds.foldl (fun n c => n * 10 + (c - 48)) n := by
  induction ds generalizing n with
  | nil => simp
  | cons c cs ih =>
    simp only [List.foldl_cons]
    exact le_trans (by omega) (ih (n * 10 + (c - 48)))

theorem digitVal_of_isDigit (c : Nat) (h : isDigit c = true) :
    digitVal c = some (c - 48) ∧ c - 48 < 10 := by
  simp only [isDigit, Bool.and_eq_true, decide_eq_true_eq] at h
  simp [digitVal, h]
  omega

theorem digitVal_of_not_isDigit (c : Nat) (h : isDigit c = false) :
    digitVal c = none ∨ ∃ d, digitVal c = some d ∧ d ≥ 10 := by
  have h1 : ¬ (48 ≤ c ∧ c ≤ 57) := by
    intro hc
    simp [isDigit, hc.1, hc.2] at h
  unfold digitVal
  rw [if_neg h1]
  by_cases h2 : 97 ≤ lower c ∧ lower c ≤ 122
  · rw [if_pos h2]
    exact Or.inr ⟨_, rfl, by omega⟩
  · rw [if_neg h2]
    exact Or.inl rfl

/-- The three outcomes of the digit loop of `ParseUint`. -/
theorem parseUintLoop_cases (maxVal : Nat) (hmax : maxVal < 2 ^ 64) (ds : List Nat) :
    ∀ n, n ≤ maxVal →
      (parseUintLoop maxVal ds n = (ds.foldl (fun n c => n * 10 + (c - 48)) n, none) ∧
        ds.all isDigit = true ∧ ds.foldl (fun n c => n * 10 + (c - 48)) n ≤ maxVal) ∨
      (parseUintLoop maxVal ds n = (0, some .ErrSyntax) ∧ ds.all isDigit = false) ∨
      (parseUintLoop maxVal ds n = (maxVal, some .ErrRange) ∧
        (ds.all isDigit = true → maxVal < ds.foldl (fun n c => n * 10 + (c - 48)) n)) := by
  induction ds with
  | nil =>
    intro n hn
    left
    simp [parseUintLoop, hn]
  | cons c cs ih =>
    intro n hn
    cases hc : isDigit c with
    | false =>
      right; left
      rcases digitVal_of_not_isDigit c hc with h | ⟨d, h, hd⟩
      · simp [parseUintLoop, h, hc]
      · simp [parseUintLoop, h, hd, hc]
    | true =>
      obtain ⟨hv, hd⟩ := digitVal_of_isDigit c hc
      have hge := foldl_digits_ge cs (n * 10 + (c - 48))
      simp only [List.foldl_cons, List.all_cons, hc, Bool.true_and]
      by_cases hcut : n ≥ maxUint64 / 10 + 1
      · right; right
        have : ¬ (c - 48 ≥ 10) := by omega
        simp only [parseUintLoop, hv, this, if_false, hcut, if_true, true_and]
        intro _
        simp only [maxUint64] at hcut
        omega
      · have hd10 : ¬ (c - 48 ≥ 10) := by omega
        simp only [maxUint64] at hcut
        have hm : (n * 10) % 2 ^ 64 = n * 10 := Nat.mod_eq_of_lt (by omega)
        by_cases hov : n * 10 + (c - 48) < 2 ^ 64
        · have hm1 : (n * 10 + (c - 48)) % 2 ^ 64 = n * 10 + (c - 48) := Nat.mod_eq_of_lt hov
          by_cases hbig : n * 10 + (c - 48) > maxVal
          · right; right
            have hcond : (n * 10 + (c - 48) < n * 10 ∨ n * 10 + (c - 48) > maxVal) := Or.inr hbig
            simp only [parseUintLoop, hv, hd10, if_false, maxUint64, hcut, hm, hm1, hcond,
              if_true, true_and]
            intro _
            omega
          · have hcond : ¬ (n * 10 + (c - 48) < n * 10 ∨ n * 10 + (c - 48) > maxVal) := by omega
            have := ih (n * 10 + (c - 48)) (by omega)
            simpa only [parseUintLoop, hv, hd10, if_false, maxUint64, hcut, hm, hm1, hcond]
              using this
        · right; right
          have hcond : ((n * 10 + (c - 48)) % 2 ^ 64 < n * 10 ∨
              (n * 10 + (c - 48)) % 2 ^ 64 > maxVal) := by
            left; omega
          simp only [parseUintLoop, hv, hd10, if_false, maxUint64, hcut, hm, hcond,
            if_true, true_and]
          intro _
          omega


theorem ParseUint_cases (sz : IntSize) (s : List Nat) (hs : s ≠ []) :
    (ParseUint sz s = (digitsValue s, none) ∧ s.all isDigit = true ∧
      digitsValue s ≤ 2 ^ sz.toNat - 1) ∨
    (ParseUint sz s = (0, some .ErrSyntax) ∧ s.all isDigit = false) ∨
    (ParseUint sz s = (2 ^ sz.toNat - 1, some .ErrRange) ∧
      (s.all isDigit = true → 2 ^ sz.toNat - 1 < digitsValue s)) := by
  have hmax : 2 ^ sz.toNat - 1 < 2 ^ 64 := by
    cases sz <;> simp [IntSize.toNat]
  have := parseUintLoop_cases (2 ^ sz.toNat - 1) hmax s 0 (Nat.zero_le _)
  simpa only [ParseUint, hs, if_false, digitsValue] using this

/-- The function `ParseInt` accepts exactly the base-10 literals within `int`
range and returns the integer they denote. -/
theorem ParseInt_spec (sz : IntSize) (s : List Nat) :
    (∀ v, literalValue s = some v → inIntRange sz v → ParseInt sz s = (v, none)) ∧
    ((literalValue s = none ∨ ∃ v, literalValue s = some v ∧ ¬ inIntRange sz v) →
      ∃ v e, ParseInt sz s = (v, some e)) := by
  cases s with
  | nil => simp [literalValue, ParseInt]
  | cons c rest =>
    by_cases h45 : c = 45
    · subst h45
      by_cases hr : rest = []
      · subst hr
        simp [literalValue, ParseInt, ParseUint]
      · rcases ParseUint_cases sz rest hr with ⟨hp, hall, hle⟩ | ⟨hp, hall⟩ | ⟨hp, himp⟩
        · cases sz <;>
          · simp only [IntSize.toNat] at hle
            simp [literalValue, ParseInt, hp, hall, hr, inIntRange, IntSize.toNat, wrapInt]
            refine ⟨?_, fun h => ?_⟩
            · intros
              rw [if_neg (by omega)]
              exact Prod.ext (by simp only; omega) rfl
            · rw [if_pos (by omega)]
              exact ⟨_, _, rfl⟩
        · simp [literalValue, ParseInt, hp, hall, hr]
        · cases sz <;>
          · simp only [IntSize.toNat] at himp hp
            simp [literalValue, ParseInt, hp, hr, inIntRange, IntSize.toNat, wrapInt]
            intro hall
            have := himp (by simpa using hall)
            omega
    · by_cases h43 : c = 43
      · subst h43
        by_cases hr : rest = []
        · subst hr
          simp [literalValue, ParseInt, ParseUint]
        · rcases ParseUint_cases sz rest hr with ⟨hp, hall, hle⟩ | ⟨hp, hall⟩ | ⟨hp, himp⟩
          · cases sz <;>
            · simp only [IntSize.toNat] at hle
              simp [literalValue, ParseInt, hp, hall, hr, inIntRange, IntSize.toNat, wrapInt]
              refine ⟨?_, fun h => ?_⟩
              · intros
                rw [if_neg (by omega)]
                exact Prod.ext (by simp only; omega) rfl
              · rw [if_pos (by omega)]
                exact ⟨_, _, rfl⟩
          · simp [literalValue, ParseInt, hp, hall, hr]
          · cases sz <;>
            · simp only [IntSize.toNat] at himp hp
              simp [literalValue, ParseInt, hp, hr, inIntRange, IntSize.toNat, wrapInt]
              intro hall
              have := himp (by simpa using hall)
              omega
      · rcases ParseUint_cases sz (c :: rest) (by simp) with
          ⟨hp, hall, hle⟩ | ⟨hp, hall⟩ | ⟨hp, himp⟩
        · cases sz <;>
          · simp only [IntSize.toNat] at hle
            simp [literalValue, ParseInt, hp, hall, h45, h43, inIntRange, IntSize.toNat, wrapInt]
            refine ⟨?_, fun h => ?_⟩
            · intros
              rw [if_neg (by omega)]
              exact Prod.ext (by simp only; omega) rfl
            · rw [if_pos (by omega)]
              exact ⟨_, _, rfl⟩
        · simp [literalValue, ParseInt, hp, hall, h45, h43]
        · cases sz <;>
          · simp only [IntSize.toNat] at himp hp
            simp [literalValue, ParseInt, hp, h45, h43, inIntRange, IntSize.toNat, wrapInt]
            intro hc hall
            have := himp (by simpa using ⟨hc, hall⟩)
            omega

end AtoiTheorems

/-! ## Theorems: process start-up -/

section StartupTheorems

variable {Cipher H : Type}

theorem build_ok (w : World Cipher H) (b : Built H) (h : build w = .ok b) :
    ∃ id key cid cs cm secret,
      mustIntEnv w "GITHUB_INTEGRATION_ID" = .ok id ∧
      mustGitHubAppsPrivateKey w = .ok key ∧
      mustGetenv w "GITHUB_CLIENT_ID" = .ok cid ∧
      mustGetenv w "GITHUB_CLIENT_SECRET" = .ok cs ∧
      mustCookieMan w = .ok cm ∧
      mustGetenv w "GITHUB_WEBHOOK_SECRET" = .ok secret ∧
      b = { ghHandler := w.newGitHubHandler cid cs cm key id
            ghChecker := { privateKey := key, integrationID := id }
            ghWebhookHandler := { secret := bytesOf secret } } := by
  unfold build at h
  cases h1 : mustIntEnv w "GITHUB_INTEGRATION_ID" with
  | error e => simp [h1, bind, Except.bind] at h
  | ok id =>
    cases h2 : mustGitHubAppsPrivateKey w with
    | error e => simp [h1, h2, bind, Except.bind] at h
    | ok key =>
      cases h3 : mustGetenv w "GITHUB_CLIENT_ID" with
      | error e => simp [h1, h2, h3, bind, Except.bind] at h
      | ok cid =>
        cases h4 : mustGetenv w "GITHUB_CLIENT_SECRET" with
        | error e => simp [h1, h2, h3, h4, bind, Except.bind] at h
        | ok cs =>
          cases h5 : mustCookieMan w with
          | error e => simp [h1, h2, h3, h4, h5, bind, Except.bind] at h
          | ok cm =>
            cases h6 : mustGetenv w "GITHUB_WEBHOOK_SECRET" with
            | error e => simp [h1, h2, h3, h4, h5, h6, bind, Except.bind] at h
            | ok secret =>
              simp [h1, h2, h3, h4, h5, h6, bind, Except.bind, pure, Except.pure] at h
              exact ⟨id, key, cid, cs, cm, secret, rfl, rfl, rfl, rfl, rfl, rfl, h.symm⟩

theorem main_of_build_error (w : World Cipher H) (f : Fatal) (h : build w = .error f) :
    (main w).exit = some f ∧ (main w).mux = [] := by
  simp [main, h]

theorem main_of_build_ok (w : World Cipher H) (b : Built H) (h : build w = .ok b) :
    (main w).exit = none ∧
    (main w).routes = ["/", "/check", "/webhook", "/gh/_auth/callback", "/gh/"] ∧
    (main w).checker = some b.ghChecker ∧
    (main w).webhook = some b.ghWebhookHandler := by
  simp [main, h, Process.routes, Process.checker, Process.webhook]

/-- The process either ended with no route registered, or `build` succeeded. -/
theorem main_cases (w : World Cipher H) :
    (∃ f, build w = .error f ∧ (main w).exit = some f ∧ (main w).mux = []) ∨
    (∃ b, build w = .ok b ∧ (main w).exit = none ∧
      (main w).routes = ["/", "/check", "/webhook", "/gh/_auth/callback", "/gh/"] ∧
      (main w).checker = some b.ghChecker ∧
      (main w).webhook = some b.ghWebhookHandler) := by
  cases h : build w with
  | error f => exact Or.inl ⟨f, rfl, main_of_build_error w f h⟩
  | ok b => exact Or.inr ⟨b, rfl, main_of_build_ok w b h⟩

theorem wrapInt_of_inIntRange (sz : IntSize) (v : Int) (h : inIntRange sz v) :
    wrapInt sz.toNat v = v := by
  cases sz <;>
  · simp only [inIntRange, IntSize.toNat] at h
    simp only [wrapInt, IntSize.toNat]
    omega

theorem Atoi_spec (sz : IntSize) (s : String) :
    (∀ v, intOfString sz s = some v → Atoi sz s = (v, none)) ∧
    (intOfString sz s = none → ∃ v e, Atoi sz s = (v, some e)) := by
  obtain ⟨h1, h2⟩ := ParseInt_spec sz ((bytesOf s).map UInt8.toNat)
  unfold intOfString Atoi
  cases hl : literalValue ((bytesOf s).map UInt8.toNat) with
  | none =>
    simp only [false_implies, implies_true, true_and, reduceCtorEq]
    intro _
    obtain ⟨v, e, hv⟩ := h2 (Or.inl hl)
    exact ⟨wrapInt sz.toNat v, e, by rw [hv]⟩
  | some v =>
    by_cases hr : inIntRange sz v
    · simp only [hr, if_true, Option.some.injEq, reduceCtorEq, false_implies, and_true]
      intro v1 hv
      subst hv
      rw [h1 v hl hr]
      exact Prod.ext (wrapInt_of_inIntRange sz v hr) rfl
    · simp only [hr, if_false, reduceCtorEq, false_implies, implies_true, true_and]
      intro _
      obtain ⟨v1, e, hv⟩ := h2 (Or.inr ⟨v, hl, hr⟩)
      exact ⟨wrapInt sz.toNat v1, e, by rw [hv]⟩

theorem bytesOf_ne_nil (s : String) (hs : s ≠ "") : bytesOf s ≠ [] := by
  have hd : s.data ≠ [] := by
    intro h
    apply hs
    cases s
    simp_all
  cases hdata : s.data with
  | nil => exact absurd hdata hd
  | cons c cs =>
    have hpos := String.length_utf8EncodeChar c ▸ Char.utf8Size_pos c
    cases hc : String.utf8EncodeChar c with
    | nil => simp [hc] at hpos
    | cons b bs => simp [bytesOf, String.toUTF8, hdata, hc]

theorem mustGetenv_ok (w : World Cipher H) (name s : String)
    (h : mustGetenv w name = .ok s) : s = Getenv w name ∧ s ≠ "" := by
  unfold mustGetenv at h
  by_cases he : Getenv w name = ""
  · simp [he] at h
  · simp only [he, if_false, Except.ok.injEq] at h
    exact ⟨h.symm, h ▸ he⟩

theorem Getenv_eq_empty_iff (w : World Cipher H) (name : String) :
    Getenv w name = "" ↔ (w.environ name = none ∨ w.environ name = some "") := by
  unfold Getenv
  cases w.environ name <;> simp

theorem mustIntEnv_ok_iff (w : World Cipher H) (name : String) (v : Int) :
    mustIntEnv w name = .ok v ↔
      (Getenv w name ≠ "" ∧ intOfString w.intSize (Getenv w name) = some v) := by
  obtain ⟨h1, h2⟩ := Atoi_spec w.intSize (Getenv w name)
  unfold mustIntEnv
  by_cases he : Getenv w name = ""
  · simp [he]
  · cases hi : intOfString w.intSize (Getenv w name) with
    | none =>
      obtain ⟨v1, e, ha⟩ := h2 hi
      simp [he, ha]
    | some v1 =>
      have ha := h1 v1 hi
      simp [he, ha]

/-- C10: `mustIntEnv(name)` ends the process when the variable is unset or
empty, or when its value is not a base-10 integer literal (optional sign,
digits only) within `int` range; otherwise it returns exactly the integer the
value denotes. In every run of `main` that registers the `/check` route, the
`integrationID` of the registered checker is the integer value of
`GITHUB_INTEGRATION_ID`. -/
theorem mustIntEnv_spec (w : World Cipher H) (name : String) :
    ((w.environ name = none ∨ w.environ name = some "" ∨
        intOfString w.intSize (Getenv w name) = none) →
      ∃ f, mustIntEnv w name = .error f) ∧
    (∀ v, Getenv w name ≠ "" → intOfString w.intSize (Getenv w name) = some v →
      mustIntEnv w name = .ok v) ∧
    (∀ gc, (main w).checker = some gc →
      intOfString w.intSize (Getenv w "GITHUB_INTEGRATION_ID") = some gc.integrationID) := by
  refine ⟨?_, ?_, ?_⟩
  · intro h
    cases hm : mustIntEnv w name with
    | error f => exact ⟨f, rfl⟩
    | ok v =>
      obtain ⟨hne, hv⟩ := (mustIntEnv_ok_iff w name v).1 hm
      rcases h with h | h | h
      · exact absurd ((Getenv_eq_empty_iff w name).2 (Or.inl h)) hne
      · exact absurd ((Getenv_eq_empty_iff w name).2 (Or.inr h)) hne
      · rw [h] at hv
        exact absurd hv (by simp)
  · intro v hne hv
    exact (mustIntEnv_ok_iff w name v).2 ⟨hne, hv⟩
  · intro gc hgc
    rcases main_cases w with ⟨f, hb, -, hmux⟩ | ⟨b, hb, -, -, hck, -⟩
    · simp [Process.checker, hmux] at hgc
    · obtain ⟨id, key, cid, cs, cm, secret, h1, -, -, -, -, -, hbe⟩ := build_ok w b hb
      rw [hck] at hgc
      have : gc.integrationID = id := by
        rw [← Option.some.inj hgc, hbe]
      rw [this]
      exact ((mustIntEnv_ok_iff w _ id).1 h1).2

set_option maxRecDepth 100000 in
theorem mustIntEnv_spec_witness :
    mustIntEnv (sampleWorld sampleEnviron (.ok [])) "GITHUB_INTEGRATION_ID" = .ok 12345 :=
  (mustIntEnv_spec (sampleWorld sampleEnviron (.ok [])) "GITHUB_INTEGRATION_ID").2.1 12345
    (by decide) (by decide)

/-- C6: when `GITHUB_WEBHOOK_SECRET` is unset or empty, `main` ends the
process with no route registered (so `/webhook` is not served); in every run
that registers routes, the secret of the registered webhook handler is a
non-empty byte sequence, the bytes of the value of that variable. -/
theorem main_webhook_secret (w : World Cipher H) :
    ((w.environ "GITHUB_WEBHOOK_SECRET" = none ∨
        w.environ "GITHUB_WEBHOOK_SECRET" = some "") →
      (main w).exit ≠ none ∧ (main w).routes = [] ∧ (main w).webhook = none) ∧
    (∀ wh, (main w).webhook = some wh →
      wh.secret ≠ [] ∧ wh.secret = bytesOf (Getenv w "GITHUB_WEBHOOK_SECRET")) ∧
    ((main w).exit = none →
      "/webhook" ∈ (main w).routes ∧ ∃ wh, (main w).webhook = some wh) := by
  rcases main_cases w with ⟨f, hb, hex, hmux⟩ | ⟨b, hb, hex, hro, hck, hwh⟩
  · refine ⟨fun _ => ?_, ?_, ?_⟩
    · simp [hex, Process.routes, Process.webhook, hmux]
    · intro wh h
      simp [Process.webhook, hmux] at h
    · intro h
      simp [hex] at h
  · obtain ⟨id, key, cid, cs, cm, secret, -, -, -, -, -, h6, hbe⟩ := build_ok w b hb
    obtain ⟨hs, hne⟩ := mustGetenv_ok w _ secret h6
    refine ⟨fun h => ?_, ?_, ?_⟩
    · exact absurd ((Getenv_eq_empty_iff w _).2 h) (hs ▸ hne)
    · intro wh h
      rw [hwh] at h
      have hwe : wh.secret = bytesOf secret := by
        rw [← Option.some.inj h, hbe]
      rw [hwe]
      exact ⟨bytesOf_ne_nil secret hne, by rw [hs]⟩
    · intro _
      exact ⟨by simp [hro], b.ghWebhookHandler, hwh⟩

set_option maxRecDepth 100000 in
theorem main_webhook_secret_witness :
    (main (sampleWorld sampleEnviron (.ok []))).webhook = some ⟨bytesOf "s3"⟩ ∧
    (⟨bytesOf "s3"⟩ : githubWebhookHandler).secret ≠ [] :=
  ⟨by decide,
   ((main_webhook_secret (sampleWorld sampleEnviron (.ok []))).2.1 ⟨bytesOf "s3"⟩
      (by decide)).1⟩

/-- C5, as stated, fails: with a key file that is readable but does not hold
a PEM block, `main` does not end the process; it registers all routes and the
registered checker stores the malformed bytes. -/
theorem main_keeps_malformed_key :
    (main (sampleWorld sampleEnviron (.ok (bytesOf "not a key")))).exit = none ∧
    (main (sampleWorld sampleEnviron (.ok (bytesOf "not a key")))).routes =
      ["/", "/check", "/webhook", "/gh/_auth/callback", "/gh/"] ∧
    (main (sampleWorld sampleEnviron (.ok (bytesOf "not a key")))).checker =
      some { privateKey := bytesOf "not a key", integrationID := 12345 } ∧
    hasPEMMarker (bytesOf "not a key") = false := by
  refine ⟨by decide, by decide, by decide, by decide⟩

/-- Start-up does not look at the bytes of the key file: with a readable key
file, whether `build` succeeds does not depend on what the file holds, and
when it succeeds the stored key is the content of the file. -/
theorem build_withKeyFile (w : World Cipher H) (content : List UInt8) :
    (∃ f, ∀ c, build (withKeyFile w c) = .error f) ∨
    (∃ b, build (withKeyFile w content) = .ok b ∧ b.ghChecker.privateKey = content ∧
      ∀ c, ∃ b1, build (withKeyFile w c) = .ok b1 ∧ b1.ghChecker.privateKey = c) := by
  have e1 : ∀ c, mustIntEnv (withKeyFile w c) "GITHUB_INTEGRATION_ID" =
      mustIntEnv w "GITHUB_INTEGRATION_ID" := fun _ => rfl
  have e2 : ∀ c, mustGitHubAppsPrivateKey (withKeyFile w c) = .ok c := by
    intro c
    simp [mustGitHubAppsPrivateKey, withKeyFile]
  have e3 : ∀ c name, mustGetenv (withKeyFile w c) name = mustGetenv w name :=
    fun _ _ => rfl
  have e5 : ∀ c, mustCookieMan (withKeyFile w c) = mustCookieMan w := fun _ => rfl
  have e6 : ∀ c, (withKeyFile w c).newGitHubHandler = w.newGitHubHandler := fun _ => rfl
  unfold build
  simp only [e1, e2, e3, e5, e6]
  cases h1 : mustIntEnv w "GITHUB_INTEGRATION_ID" with
  | error e => exact Or.inl ⟨e, fun _ => by simp [bind, Except.bind]⟩
  | ok id =>
    cases h3 : mustGetenv w "GITHUB_CLIENT_ID" with
    | error e => exact Or.inl ⟨e, fun _ => by simp [bind, Except.bind]⟩
    | ok cid =>
      cases h4 : mustGetenv w "GITHUB_CLIENT_SECRET" with
      | error e => exact Or.inl ⟨e, fun _ => by simp [bind, Except.bind]⟩
      | ok cs =>
        cases h5 : mustCookieMan w with
        | error e => exact Or.inl ⟨e, fun _ => by simp [bind, Except.bind]⟩
        | ok cm =>
          cases h6 : mustGetenv w "GITHUB_WEBHOOK_SECRET" with
          | error e => exact Or.inl ⟨e, fun _ => by simp [bind, Except.bind]⟩
          | ok secret =>
            refine Or.inr
              ⟨{ ghHandler := w.newGitHubHandler cid cs cm content id
                 ghChecker := { privateKey := content, integrationID := id }
                 ghWebhookHandler := { secret := bytesOf secret } },
               by simp [bind, Except.bind, pure, Except.pure], rfl, ?_⟩
            intro c
            exact
              ⟨{ ghHandler := w.newGitHubHandler cid cs cm c id
                 ghChecker := { privateKey := c, integrationID := id }
                 ghWebhookHandler := { secret := bytesOf secret } },
               by simp [bind, Except.bind, pure, Except.pure], rfl⟩

/-- C5, amended: a key file that cannot be read is fatal at start-up: `main`
then ends the process with no route registered. For every state of the key
file, `main` either ends the process with no route registered, or the
`privateKey` of the registered checker is exactly the bytes read from the
file. The contents of the key are not checked at start-up:
`mustGitHubAppsPrivateKey` returns whatever bytes the file holds, whether
`main` ends the process does not depend on those bytes, and when routes are
registered any content, well formed or not, is stored as it is. -/
theorem main_private_key (w : World Cipher H) :
    ((∃ err, w.readFile privateKeyFile = .error err) →
      (main w).exit ≠ none ∧ (main w).routes = [] ∧ (main w).checker = none) ∧
    (((main w).exit ≠ none ∧ (main w).routes = []) ∨
      (∃ gc, (main w).checker = some gc ∧
        w.readFile privateKeyFile = .ok gc.privateKey)) ∧
    (∀ key, w.readFile privateKeyFile = .ok key → mustGitHubAppsPrivateKey w = .ok key) ∧
    (∀ c1 c2, (main (withKeyFile w c1)).exit = (main (withKeyFile w c2)).exit ∧
      (main (withKeyFile w c1)).routes = (main (withKeyFile w c2)).routes) ∧
    (∀ c1 c2, (main (withKeyFile w c1)).exit = none →
      ∃ gc, (main (withKeyFile w c2)).checker = some gc ∧ gc.privateKey = c2) := by
  refine ⟨?_, ?_, ?_, ?_, ?_⟩
  · intro h
    rcases main_cases w with ⟨f, hb, hex, hmux⟩ | ⟨b, hb, hex, hro, hck, hwh⟩
    · simp [hex, Process.routes, Process.checker, hmux]
    · obtain ⟨id, key, cid, cs, cm, secret, -, h2, -, -, -, -, hbe⟩ := build_ok w b hb
      obtain ⟨err, he⟩ := h
      simp [mustGitHubAppsPrivateKey, he] at h2
  · rcases main_cases w with ⟨f, hb, hex, hmux⟩ | ⟨b, hb, hex, hro, hck, hwh⟩
    · exact Or.inl (by simp [hex, Process.routes, hmux])
    · obtain ⟨id, key, cid, cs, cm, secret, -, h2, -, -, -, -, hbe⟩ := build_ok w b hb
      have hkey : w.readFile privateKeyFile = .ok key := by
        unfold mustGitHubAppsPrivateKey at h2
        cases hr : w.readFile privateKeyFile with
        | error e => simp [hr] at h2
        | ok k =>
          simp only [hr, Except.ok.injEq] at h2
          rw [h2]
      exact Or.inr ⟨b.ghChecker, hck, by rw [hkey, hbe]⟩
  · intro key hk
    simp [mustGitHubAppsPrivateKey, hk]
  · intro c1 c2
    rcases build_withKeyFile w c1 with ⟨f, hf⟩ | ⟨b, -, -, hall⟩
    · have h1 := main_of_build_error _ f (hf c1)
      have h2 := main_of_build_error _ f (hf c2)
      simp [h1.1, h2.1, Process.routes, h1.2, h2.2]
    · obtain ⟨b1, hb1, -⟩ := hall c1
      obtain ⟨b2, hb2, -⟩ := hall c2
      have h1 := main_of_build_ok _ b1 hb1
      have h2 := main_of_build_ok _ b2 hb2
      exact ⟨by rw [h1.1, h2.1], by rw [h1.2.1, h2.2.1]⟩
  · intro c1 c2 hex
    rcases build_withKeyFile w c1 with ⟨f, hf⟩ | ⟨b, -, -, hall⟩
    · have h1 := main_of_build_error _ f (hf c1)
      rw [h1.1] at hex
      exact absurd hex (by simp)
    · obtain ⟨b2, hb2, hk2⟩ := hall c2
      exact ⟨b2.ghChecker, (main_of_build_ok _ b2 hb2).2.2.1, hk2⟩

set_option maxRecDepth 100000 in
theorem main_private_key_witness :
    (main (sampleWorld sampleEnviron (.error "no such file"))).exit ≠ none ∧
    mustGitHubAppsPrivateKey (sampleWorld sampleEnviron (.ok (bytesOf "not a key"))) =
      .ok (bytesOf "not a key") ∧
    (∃ gc, (main (withKeyFile (sampleWorld sampleEnviron (.ok [])) (bytesOf "not a key"))).checker
        = some gc ∧ gc.privateKey = bytesOf "not a key") :=
  ⟨((main_private_key (sampleWorld sampleEnviron (.error "no such file"))).1
      ⟨"no such file", by simp [sampleWorld]⟩).1,
   (main_private_key (sampleWorld sampleEnviron (.ok (bytesOf "not a key")))).2.2.1
      (bytesOf "not a key") (by simp [sampleWorld]),
   (main_private_key (sampleWorld sampleEnviron (.ok []))).2.2.2.2 [] (bytesOf "not a key")
      (by decide)⟩

end StartupTheorems

/-! ## Theorems: the annotation batcher -/

section BatcherTheorems

/-- The rounded-up quotient of two naturals, as a natural division. -/
theorem ceil_div_eq (n m : Nat) (hm : 1 ≤ m) :
    ⌈(n : ℚ) / (m : ℚ)⌉₊ = (n + m - 1) / m := by
  have hmq : (0 : ℚ) < (m : ℚ) := by exact_mod_cast hm
  have hlow : (n + m - 1) / m * m ≤ n + m - 1 := Nat.div_mul_le_self _ _
  have hup : n + m - 1 < ((n + m - 1) / m + 1) * m := by
    have := @Nat.lt_div_mul_add (n + m - 1) m (by omega)
    rw [Nat.add_mul, Nat.one_mul]
    exact this
  apply le_antisymm
  · rw [Nat.ceil_le, div_le_iff₀ hmq]
    have h : n ≤ (n + m - 1) / m * m := by
      rw [Nat.add_mul, Nat.one_mul] at hup
      omega
    exact_mod_cast h
  · cases hk : (n + m - 1) / m with
    | zero => exact Nat.zero_le _
    | succ k =>
      rw [Nat.succ_le_iff, Nat.lt_ceil, lt_div_iff₀ hmq]
      have h : k * m < n := by
        rw [hk, Nat.add_mul, Nat.one_mul] at hlow
        omega
      exact_mod_cast h

theorem chunksUpTo_spec {α : Type} (m : Nat) (hm : 1 ≤ m) :
    ∀ (fuel : Nat) (xs : List α), xs.length ≤ fuel →
      (chunksUpTo m fuel xs).flatten = xs ∧
      (chunksUpTo m fuel xs).length = (xs.length + m - 1) / m ∧
      (∀ b ∈ chunksUpTo m fuel xs, b.length ≤ m ∧ b ≠ []) := by
  intro fuel
  induction fuel with
  | zero =>
    intro xs hx
    have : xs = [] := List.length_eq_zero.mp (Nat.le_zero.mp hx)
    subst this
    refine ⟨by simp [chunksUpTo], ?_, by simp [chunksUpTo]⟩
    simp only [chunksUpTo, List.length_nil, Nat.zero_add]
    exact (Nat.div_eq_of_lt (by omega)).symm
  | succ fuel ih =>
    intro xs hx
    cases xs with
    | nil =>
      refine ⟨by simp [chunksUpTo], ?_, by simp [chunksUpTo]⟩
      simp only [chunksUpTo, List.length_nil, Nat.zero_add]
      exact (Nat.div_eq_of_lt (by omega)).symm
    | cons x xs =>
      have hlen : ((x :: xs).drop m).length ≤ fuel := by
        rw [List.length_drop]
        simp only [List.length_cons] at hx ⊢
        omega
      obtain ⟨h1, h2, h3⟩ := ih ((x :: xs).drop m) hlen
      refine ⟨?_, ?_, ?_⟩
      · simp only [chunksUpTo, List.flatten_cons, h1]
        exact List.take_append_drop m (x :: xs)
      · simp only [chunksUpTo, List.length_cons, h2, List.length_drop]
        by_cases hle : m ≤ xs.length + 1
        · have : xs.length + 1 - m + m - 1 + m = xs.length + 1 + m - 1 := by omega
          rw [← this, Nat.add_div_right _ (by omega)]
        · have h0 : (xs.length + 1 - m + m - 1) / m = 0 := Nat.div_eq_of_lt (by omega)
          have h1 : (xs.length + 1 + m - 1) / m = 1 := by
            apply Nat.div_eq_of_lt_le <;> omega
          rw [h0, h1]
      · intro b hb
        simp only [chunksUpTo, List.mem_cons] at hb
        rcases hb with hb | hb
        · subst hb
          refine ⟨by rw [List.length_take]; exact Nat.min_le_left _ _, ?_⟩
          intro hnil
          have := congrArg List.length hnil
          simp only [List.length_take, List.length_cons, List.length_nil] at this
          omega
        · exact h3 b hb

/-- C7: for every diagnostic list and every `maxBatchSize` `m ≥ 1`, the
batcher produces `ceil(N'/m)` annotation batches, where `N'` is the number of
diagnostics that survive severity filtering; every batch has at most `m`
annotations; and the concatenation of the batches in order is the filtered
input, in its order. -/
theorem annotationBatches_spec (diagnostics : List Diagnostic) (m : Nat) (hm : 1 ≤ m) :
    (annotationBatches diagnostics m).length =
      ⌈((diagnostics.filter survives).length : ℚ) / (m : ℚ)⌉₊ ∧
    (∀ b ∈ annotationBatches diagnostics m, b.length ≤ m) ∧
    (annotationBatches diagnostics m).flatten =
      (diagnostics.filter survives).map toAnnotation := by
  obtain ⟨h1, h2, h3⟩ := chunksUpTo_spec m hm
    ((diagnostics.filter survives).map toAnnotation).length
    ((diagnostics.filter survives).map toAnnotation) (Nat.le_refl _)
  refine ⟨?_, fun b hb => (h3 b hb).1, h1⟩
  rw [ceil_div_eq _ _ hm]
  simpa only [annotationBatches, chunks, List.length_map] using h2

set_option maxRecDepth 1000000 in
theorem annotationBatches_spec_witness :
    scenarioDiagnostics.length = 120 ∧
    (annotationBatches scenarioDiagnostics 50).map List.length = [50, 50, 20] ∧
    (annotationBatches scenarioDiagnostics 50).length =
      ⌈((scenarioDiagnostics.filter survives).length : ℚ) / ((50 : Nat) : ℚ)⌉₊ ∧
    (annotationBatches scenarioDiagnostics 50).flatten =
      (scenarioDiagnostics.filter survives).map toAnnotation ∧
    (batch false scenarioDiagnostics 50).2 = (Conclusion.failure, 120, 0) :=
  ⟨by decide, by decide,
   (annotationBatches_spec scenarioDiagnostics 50 (by decide)).1,
   (annotationBatches_spec scenarioDiagnostics 50 (by decide)).2.2,
   by decide⟩

end BatcherTheorems

end Doghouse
